import Mathlib

/-!
Verification of the Stax Kitsu addon timeline synchronizer.

This file gives a shallow embedding of the synchronization logic of the
Stax Kitsu addon: the sequencer helpers of
`python/blender_kitsu_utils/sequencer.py`, the progressive timeline build
of `python/stax_kitsu_ui/ops/ops_timeline.py`, and the credential codec of
`python/stax_kitsu_ui/ops/ops_session.py`.  Host (Blender) calls that only
touch view state (refresh, view_all, deselect, annotation layers) carry no
state in the embedding and are noted in comments at the point where the
source performs them.  Python falsiness of `None` / `""` / `0` is modelled
with `Option` for optional strings and with `0` for missing durations.
-/

namespace StaxKitsu

/-- A shot as delivered by the production tracker.  A `duration` of `0`
models the Python falsy cases (`None` or `0`) that `create_shot_stack`
rejects. -/
structure KitsuShot where
  name : String
  code : String
  duration : Nat
  deriving DecidableEq, Repr

/-- A version as delivered by the production tracker.  `movie_path = none`
models a falsy media locator (Python `None` or `""`). -/
structure KitsuVersion where
  name : String
  movie_path : Option String
  status : String
  deriving DecidableEq, Repr

/-- From `sequencer.get_shot_seq_name`: the shot stack is named
`f"{kitsu_shot.name}_{task_name}"`. -/
def get_shot_seq_name (task_name : String) (kitsu_shot : KitsuShot) : String :=
  kitsu_shot.name ++ "_" ++ task_name

/-- Modelled from the spec: the source calls `get_version_seq_name`, which is
not defined anywhere in the repository snapshot; the spec speaks of "a
Version-container for this exact version identifier", so the identifier is
taken to be the version's name. -/
def get_version_seq_name (kitsu_version : KitsuVersion) : String :=
  kitsu_version.name

/-- From `sequencer.image_files_extensions`. -/
def image_files_extensions : List String :=
  [".bmp", ".cin", ".dds", ".dpx", ".exr", ".hdr", ".j2c", ".jp2", ".jpeg",
   ".jpg", ".pdd", ".png", ".psb", ".psd", ".rgb", ".rgba", ".sgi", ".tga",
   ".tif", ".tiff", ".tx"]

/-- From `sequencer.sound_files_extensions`. -/
def sound_files_extensions : List String :=
  [".wav", ".ogg", ".oga", ".mp3", ".mp2", ".ac3", ".aac", ".flac", ".wma",
   ".eac3", ".aif", ".aiff", ".m4a", ".mka"]

/-- Characters of the last path component (after the last slash); models
`pathlib.Path(...).name`. -/
def lastComponent (l : List Char) : List Char :=
  l.foldl (fun acc c => if c = '/' then [] else acc ++ [c]) []

/-- Characters after the last dot, `none` when there is no dot; used to
model `pathlib.Path(...).suffix` (the scan starts after the first character
of the component, because a dot in position zero never starts a suffix). -/
def suffix_fold (l : List Char) : Option (List Char) :=
  l.foldl (fun acc c => if c = '.' then some [] else acc.map (fun e => e ++ [c])) none

/-- ASCII lowercasing, character by character; models `str.lower()` on the
extension strings involved. -/
def str_to_lower (s : String) : String :=
  ⟨s.data.map Char.toLower⟩

/-- Models `pathlib.Path(p).suffix`: the extension of the final component,
including the dot, and `""` when there is none. -/
def pathSuffix (p : String) : String :=
  match lastComponent p.data with
  | [] => ""
  | _ :: rest =>
    match suffix_fold rest with
    | some (c :: cs) => ⟨'.' :: c :: cs⟩
    | _ => ""

/-- Which of the three host constructors `create_version_sequence` picks:
`new_image`, `new_sound` or `new_movie`, chosen on the lowered path
suffix. -/
inductive MediaKind where
  | image
  | sound
  | movie
  deriving DecidableEq, Repr

/-- The suffix dispatch of `create_version_sequence` (lines 171-196 of
`sequencer.py`): image extensions, sound extensions, movie otherwise. -/
def mediaKind (path : String) : MediaKind :=
  let suffix := str_to_lower (pathSuffix path)
  if suffix ∈ image_files_extensions then MediaKind.image
  else if suffix ∈ sound_files_extensions then MediaKind.sound
  else MediaKind.movie

/-- From `openreviewio.Status` as built by `build_orio_status`: only the
`state` and `author` fields are set by the source. -/
structure OrioStatus where
  state : String
  author : String
  deriving DecidableEq, Repr

/-- The status taxonomy: the `available_statuses` dict with its `approved`
and `rejected` keys, as read by `build_orio_status`. -/
structure StatusTaxonomy where
  approved : List String
  rejected : List String
  deriving DecidableEq, Repr

/-- From `sequencer.build_orio_status`: the source tests membership in the
rejected set first, then the approved set, and falls back to the state
string `"waiting review"`. -/
def build_orio_status (available_statuses : StatusTaxonomy) (version_status : String) :
    OrioStatus :=
  if version_status ∈ available_statuses.rejected then
    { state := "rejected", author := "" }
  else if version_status ∈ available_statuses.approved then
    { state := "approved", author := "" }
  else
    { state := "waiting review", author := "" }

/-- A version sequence (movie, sound or image strip) created inside a shot
stack by `create_version_sequence`, with the custom properties the source
sets on it. -/
structure VersionSeq where
  name : String
  channel : Nat
  frame_start : Nat
  kind : MediaKind
  current_status : String
  to_build_notes : Bool
  lock : Bool
  deriving DecidableEq, Repr

/-- A shot stack: the metasequence created by `create_shot_stack`, holding
the version sequences of one shot and channel. -/
structure ShotStack where
  name : String
  channel_index : Nat
  frame_start : Nat
  frame_final_duration : Nat
  stax_meta_usage : String
  sequences : List VersionSeq
  deriving DecidableEq, Repr

/-- From `sequencer.create_shot_stack`: refuses a shot whose duration is
falsy (the source raises `ValueError` with a message naming the shot code;
the embedding returns it as `Except.error`, with the quotes of the original
message dropped), otherwise builds the metasequence with the given channel
and frame start and tags it.  The grease-pencil annotation-frame
bookkeeping of the source touches only host annotation layers and carries
no state here.  The source appends the new metasequence to the host
sequence editor; in the embedding the caller appends the finished
metasequence. -/
def create_shot_stack (channel_name : String) (kitsu_shot : KitsuShot)
    (channel_index : Nat) (frame_start : Nat) : Except String ShotStack :=
  if kitsu_shot.duration = 0 then
    Except.error ("Shot " ++ kitsu_shot.code ++
      ": duration is None. Fix it in Kitsu before retrying to load.")
  else
    Except.ok
      { name := get_shot_seq_name channel_name kitsu_shot
        channel_index := channel_index
        frame_start := frame_start
        frame_final_duration := kitsu_shot.duration
        stax_meta_usage := "Versions"
        sequences := [] }

/-- From `sequencer.create_version_sequence`.  `is_file` models
`Path(...).is_file()` and `download_movie_from_kitsu` models the download
helper the source names but never defines (both are external effects
passed in as functions).  The sentinel of lines 143-148 returns without
creating anything when a sequence named with the version name, or that name
prefixed with `"stax."`, already exists in the shot stack.  A falsy clip
path after the optional download attempt is a silent skip (lines 150-161).
The three media-kind branches differ only in which host constructor is
used; all set the same name, channel and frame start, recorded here in the
`kind` field.  The host constructors are modelled as always returning the
new sequence, so the `if not sequence` sentinel of the source never
fires. -/
def create_version_sequence (available_statuses : StatusTaxonomy)
    (is_file : String → Bool) (download_movie_from_kitsu : KitsuVersion → Option String)
    (shot_stack : ShotStack) (kitsu_version : KitsuVersion)
    (channel_index : Option Nat) (try_download : Bool) :
    ShotStack × Option VersionSeq :=
  let version_name := get_version_seq_name kitsu_version
  let existing_versions := shot_stack.sequences.map VersionSeq.name
  if version_name ∈ existing_versions ∨ ("stax." ++ version_name) ∈ existing_versions then
    (shot_stack, none)
  else
    let version_clip_path := kitsu_version.movie_path
    let version_clip_path :=
      if try_download then
        match version_clip_path with
        | none => download_movie_from_kitsu kitsu_version
        | some p => if is_file p then some p else download_movie_from_kitsu kitsu_version
      else version_clip_path
    match version_clip_path with
    | none => (shot_stack, none)
    | some p =>
      let channel_index :=
        match channel_index with
        | none => shot_stack.sequences.length + 1
        | some 0 => shot_stack.sequences.length + 1
        | some n => n
      let sequence : VersionSeq :=
        { name := version_name
          channel := channel_index
          frame_start := shot_stack.frame_start
          kind := mediaKind p
          current_status := (build_orio_status available_statuses kitsu_version.status).state
          to_build_notes := false
          lock := false }
      ({ shot_stack with sequences := shot_stack.sequences ++ [sequence] }, some sequence)

/-- One entry of the `editing_versions_mapping` pending queue consumed by
`build_progressive`: a `(task index, shot index, last version)` triple.  The
version is optional: the source stores `None` when there is no version to
build for the pair. -/
structure QueueEntry where
  task_index : Nat
  shot_index : Nat
  version : Option KitsuVersion
  deriving DecidableEq, Repr

/-- The module-level mutable state of `ops_timeline.py`: the `counter` and
`frame_offset` globals, together with the host sequence editor's list of
shot stacks (the only timeline state the build mutates). -/
structure BuildState where
  counter : Nat
  frame_offset : Nat
  seq_ed : List ShotStack
  deriving DecidableEq, Repr

/-- The read-only inputs of one progressive build: the captured arguments of
the `bpy.app.timers` callback plus the external effects the source calls.
`is_user_authorized_to_review` and `download_movie_from_kitsu` are named but
undefined in the source (TODO stubs) and enter as oracle values. -/
structure BuildEnv where
  available_statuses : StatusTaxonomy
  is_file : String → Bool
  download_movie_from_kitsu : KitsuVersion → Option String
  is_user_authorized_to_review : Bool
  selected_tasks : List String
  kitsu_shots : List KitsuShot
  versions_and_reviews : List QueueEntry

/-- The `if version:` block of one `build_progressive` iteration (lines
393-420): create the shot stack at channel `task_index + 1` and at frame
offset `frame_offset if shot_index != 0 else 0`, then call
`create_version_sequence(shot_seq, version)` (line 405).  That call is
broken as written: `create_version_sequence` is a module-level function
whose first required parameter is `self` (sequencer.py line 129), so the
two positional arguments bind `self = shot_seq` and `shot_stack = version`,
leave the required `kitsu_version` unbound, and Python raises `TypeError`
before the function body runs — at every entry that carries a version (the
quotes of the original message are dropped here).  The already-created
metasequence stays behind in the host editor, but the pass aborts; the
embedding's error carries no state, matching the state the later steps
never get to build.  The subsequent lines (set `lock` and
`to_build_notes`, re-assert the stack duration, append to the editor) are
therefore unreachable on this path.  With no version the editor is left
unchanged. -/
def build_entry_containers (_env : BuildEnv) (entry : QueueEntry) (task_name : String)
    (shot : KitsuShot) (st : BuildState) : Except String (List ShotStack) :=
  match entry.version with
  | none => Except.ok st.seq_ed
  | some _version =>
    match create_shot_stack task_name shot (entry.task_index + 1)
        (if entry.shot_index ≠ 0 then st.frame_offset else 0) with
    | Except.error e => Except.error e
    | Except.ok _shot_seq =>
      Except.error
        "TypeError: create_version_sequence() missing 1 required positional argument: kitsu_version"

/-- One full iteration of the `for _ in range(5)` loop body past the
stopper (lines 382-428): look the task name and the shot up (a Python
`IndexError` is an `Except.error`), build the containers when a version is
present, then advance the frame-offset accumulator (reset to the shot's
duration at shot index 0, accumulate otherwise) and the counter.  The
"refresh every 85 versions" call only touches host view state. -/
def process_entry (env : BuildEnv) (entry : QueueEntry) (st : BuildState) :
    Except String BuildState :=
  match env.selected_tasks[entry.task_index]?, env.kitsu_shots[entry.shot_index]? with
  | some task_name, some shot =>
    match build_entry_containers env entry task_name shot st with
    | Except.error e => Except.error e
    | Except.ok seq_ed2 =>
      Except.ok
        { counter := st.counter + 1
          frame_offset :=
            if entry.shot_index = 0 then shot.duration
            else st.frame_offset + shot.duration
          seq_ed := seq_ed2 }
  | _, _ => Except.error "IndexError: list index out of range"

/-- The batched loop of `build_progressive` (`for _ in range(5)`), with the
budget as the `Nat` argument.  Exhausting the budget returns delay `0`
(reschedule immediately); reaching the end of the queue performs the
one-time finalization (view_all, refresh, deselect, playhead move — host
view state only) and returns `none`, which unregisters the timer (done). -/
def build_loop (env : BuildEnv) : Nat → BuildState → Except String (BuildState × Option Nat)
  | 0, st => Except.ok (st, some 0)
  | n + 1, st =>
    if env.versions_and_reviews.length ≤ st.counter then
      Except.ok (st, none)
    else
      match env.versions_and_reviews[st.counter]? with
      | none => Except.error "IndexError: list index out of range"
      | some entry =>
        match process_entry env entry st with
        | Except.error e => Except.error e
        | Except.ok st2 => build_loop env n st2

/-- From `ops_timeline.build_progressive`: when the host reports animation
playback the call returns delay `1` at once ("wait 1 sec if animation
playing") with the state untouched; otherwise it runs the batched loop with
budget 5. -/
def build_progressive (env : BuildEnv) (is_animation_playing : Bool) (st : BuildState) :
    Except String (BuildState × Option Nat) :=
  if is_animation_playing then Except.ok (st, some 1)
  else build_loop env 5 st

/-- Repeated scheduling of `build_progressive` with playback inactive at
every tick, until the callback returns `none` (timer unregistered).  The
fuel bounds the number of ticks; callers pass enough fuel for the queue at
hand. -/
def drain_build (env : BuildEnv) : Nat → BuildState → Except String BuildState
  | 0, _ => Except.error "out of fuel"
  | fuel + 1, st =>
    match build_progressive env false st with
    | Except.error e => Except.error e
    | Except.ok (st2, none) => Except.ok st2
    | Except.ok (st2, some _) => drain_build env fuel st2

/-- The reset at the top of `LoadTimelineBase.execute` (lines 228-234):
when sequences remain from a previous load, clear the sequence editor and
zero the `counter` and `frame_offset` globals; otherwise leave everything
as it is. -/
def load_reset (st : BuildState) : BuildState :=
  if 0 < st.seq_ed.length then { counter := 0, frame_offset := 0, seq_ed := [] } else st

/-- One full synchronization pass: the reset of `LoadTimelineBase.execute`
followed by a complete drain of `build_progressive` over the pending queue
carried by `env` (the queue stands for the mapping the plan step hands to
the timer callback). -/
def full_sync_pass (env : BuildEnv) (st : BuildState) : Except String BuildState :=
  drain_build env (env.versions_and_reviews.length + 2) (load_reset st)

/-- Python tuple unpacking of a string into two targets, as performed by
`for i, channel in reversed(selected_channels)` in
`LoadTimelineBase.execute` (line 265): it succeeds only when the string has
exactly two characters and raises `ValueError` otherwise. -/
def unpack_pair (s : String) : Except String (Char × Char) :=
  match s.data with
  | [a, b] => Except.ok (a, b)
  | [] => Except.error "ValueError: not enough values to unpack"
  | [_] => Except.error "ValueError: not enough values to unpack"
  | _ => Except.error "ValueError: too many values to unpack"

/-- An entry of `editing_versions_mapping` as the source actually builds it:
the first component is whatever the string unpacking bound to `i` (a
character, not a channel index).  `last_version` is the `None` TODO stub of
line 272. -/
structure RawMappingEntry where
  i : Char
  j : Nat
  last_version : Option KitsuVersion
  deriving DecidableEq, Repr

/-- The queue construction of `LoadTimelineBase.execute` (lines 259-277) as
written: iterate `reversed(selected_channels)` unpacking each channel name
into `i, channel`, and for each shot index `j` record `(i, j, last_version)`
with `last_version = None` (TODO stub).  The `scene_frame_end` accumulation
guarded by `if i == 0` compares a character with `0` and never fires; it
touches no state modelled here. -/
def build_editing_versions_mapping (selected_channels : List String)
    (kitsu_shots : List KitsuShot) : Except String (List RawMappingEntry) :=
  (selected_channels.reverse.mapM (fun channel =>
    (unpack_pair channel).map (fun ic =>
      (List.range kitsu_shots.length).map
        (fun j => RawMappingEntry.mk ic.1 j none)))).map List.flatten

/-- An incoming note from the tracker: its identifier and the identifier of
the note it replies to, when any. -/
structure KitsuNote where
  id : String
  parent_id : Option String
  body : String
  deriving DecidableEq, Repr

/-- A note placed in a review's thread forest: where it got attached
(`none` meaning the thread root) and whether it was flagged as an
anomaly. -/
structure PlacedNote where
  note : KitsuNote
  attached_under : Option String
  flagged : Bool
  deriving DecidableEq, Repr

/-- Whether a note can be attached now: it replies to nothing, or its
declared parent has already been placed. -/
def note_ready (placed_ids : List String) (n : KitsuNote) : Bool :=
  match n.parent_id with
  | none => true
  | some p => placed_ids.contains p

/-- Modelled from the spec: the note-thread reconciliation of `edit_review`
is a TODO stub in the source (`kitsu_notes = []  # TODO`, with
`parent_note=previously_created_orio_note` only sketched), so the
buffering reconciler is taken from the spec's contract: attach each
incoming note under its parent if the parent is already placed, defer it
otherwise and re-attempt once the parent arrives, and after no progress is
possible attach the remaining notes at the thread root with a flagged
anomaly instead of dropping them.  The fuel starts at the number of
incoming notes, enough for every productive pass. -/
def reconcile_aux : Nat → List String → List KitsuNote → List PlacedNote
  | 0, _, pending => pending.map (fun n => PlacedNote.mk n none true)
  | fuel + 1, placed_ids, pending =>
    let ready := pending.filter (fun n => note_ready placed_ids n)
    let rest := pending.filter (fun n => !(note_ready placed_ids n))
    if ready.isEmpty then pending.map (fun n => PlacedNote.mk n none true)
    else
      ready.map (fun n => PlacedNote.mk n n.parent_id false) ++
        reconcile_aux fuel (placed_ids ++ ready.map KitsuNote.id) rest

/-- Modelled from the spec: `reconcile_notes(existing_notes_tree,
incoming_notes) -> updated_tree` of spec section 4.3, on top of
`reconcile_aux`. -/
def reconcile_notes (existing : List PlacedNote) (incoming : List KitsuNote) :
    List PlacedNote :=
  existing ++ reconcile_aux incoming.length (existing.map (fun pl => pl.note.id)) incoming

/-- UTF-8 encoding of one Unicode scalar value, as `str.encode("utf-8")`
produces it; bytes are naturals below 256. -/
def utf8EncodeChar (c : Char) : List Nat :=
  let v := c.toNat
  if v < 0x80 then [v]
  else if v < 0x800 then [0xC0 + v / 64, 0x80 + v % 64]
  else if v < 0x10000 then [0xE0 + v / 4096, 0x80 + v / 64 % 64, 0x80 + v % 64]
  else [0xF0 + v / 262144, 0x80 + v / 4096 % 64, 0x80 + v / 64 % 64, 0x80 + v % 64]

/-- UTF-8 encoding of a character list; models `password.encode("utf-8")`. -/
def utf8Encode (s : List Char) : List Nat :=
  (s.map utf8EncodeChar).flatten

/-- Continuation of a 2-byte UTF-8 form: lead byte `b`, then one
continuation byte; rejects a malformed continuation byte.  Lead bytes below
`0xC2` (overlong forms) are already rejected by the caller. -/
def utf8Dec2 (b : Nat) : List Nat → Option (Nat × List Nat)
  | b1 :: bs1 =>
    if 0x80 ≤ b1 ∧ b1 < 0xC0 then some ((b - 0xC0) * 64 + (b1 - 0x80), bs1) else none
  | [] => none

/-- Continuation of a 3-byte UTF-8 form: two continuation bytes; rejects
malformed continuation bytes, overlong forms and surrogates. -/
def utf8Dec3 (b : Nat) : List Nat → Option (Nat × List Nat)
  | b1 :: b2 :: bs2 =>
    let v := (b - 0xE0) * 4096 + (b1 - 0x80) * 64 + (b2 - 0x80)
    if (0x80 ≤ b1 ∧ b1 < 0xC0) ∧ (0x80 ≤ b2 ∧ b2 < 0xC0) ∧ 0x800 ≤ v ∧
        (v < 0xD800 ∨ 0xDFFF < v) then some (v, bs2)
    else none
  | _ => none

/-- Continuation of a 4-byte UTF-8 form: three continuation bytes; rejects
malformed continuation bytes, overlong forms and out-of-range values. -/
def utf8Dec4 (b : Nat) : List Nat → Option (Nat × List Nat)
  | b1 :: b2 :: b3 :: bs3 =>
    let v := (b - 0xF0) * 262144 + (b1 - 0x80) * 4096 + (b2 - 0x80) * 64 + (b3 - 0x80)
    if (0x80 ≤ b1 ∧ b1 < 0xC0) ∧ (0x80 ≤ b2 ∧ b2 < 0xC0) ∧ (0x80 ≤ b3 ∧ b3 < 0xC0) ∧
        0x10000 ≤ v ∧ v < 0x110000 then some (v, bs3)
    else none
  | _ => none

/-- One step of strict UTF-8 decoding: reads one scalar value off the front
of the byte list, dispatching on the lead byte; `none` for an empty input,
a stray continuation byte, an overlong lead (`0xC0`/`0xC1`) or a lead byte
above `0xF4`. -/
def utf8DecodeStep (l : List Nat) : Option (Nat × List Nat) :=
  match l with
  | [] => none
  | b :: bs =>
    if b < 0x80 then some (b, bs)
    else if b < 0xC2 then none
    else if b < 0xE0 then utf8Dec2 b bs
    else if b < 0xF0 then utf8Dec3 b bs
    else if b < 0xF5 then utf8Dec4 b bs
    else none

/-- Driver of the strict UTF-8 decoder.  The fuel only bounds the number of
steps for the termination argument: every step consumes at least one byte,
so fuel equal to the byte count (as `utf8Decode` passes) never runs out
before the input does. -/
def utf8DecodeLoop : Nat → List Nat → Option (List Char)
  | _, [] => some []
  | 0, _ :: _ => none
  | fuel + 1, b :: bs =>
    match utf8DecodeStep (b :: bs) with
    | none => none
    | some (v, rest) => (utf8DecodeLoop fuel rest).map (fun cs => Char.ofNat v :: cs)

/-- Strict UTF-8 decoding, as `bytes.decode("utf-8")` performs it: rejects
stray continuation bytes, overlong forms, surrogates and out-of-range
values; `none` models the raised `UnicodeDecodeError`. -/
def utf8Decode (l : List Nat) : Option (List Char) :=
  utf8DecodeLoop l.length l

/-- The base64 alphabet of RFC 4648, as `base64.b64encode` uses it. -/
def base64Alphabet : List Char :=
  "ABCDEFGHIJKLMNOPQRSTUVWXYZabcdefghijklmnopqrstuvwxyz0123456789+/".data

/-- The alphabet character of a sextet. -/
def b64Char (n : Nat) : Char :=
  base64Alphabet.getD n 'A'

/-- Position of a character in the base64 alphabet, scanning from `i`. -/
def b64IndexFrom (c : Char) : List Char → Nat → Option Nat
  | [], _ => none
  | a :: rest, i => if a = c then some i else b64IndexFrom c rest (i + 1)

/-- The sextet of an alphabet character, `none` for a character outside the
alphabet. -/
def b64Index (c : Char) : Option Nat :=
  b64IndexFrom c base64Alphabet 0

/-- Base64 encoding of a byte list, as `base64.b64encode` produces it:
3-byte groups become 4 alphabet characters, a trailing group of 1 or 2
bytes is padded with `=`. -/
def b64EncodeBytes : List Nat → List Char
  | [] => []
  | [a] => [b64Char (a / 4), b64Char (a % 4 * 16), '=', '=']
  | [a, b] => [b64Char (a / 4), b64Char (a % 4 * 16 + b / 16), b64Char (b % 16 * 4), '=']
  | a :: b :: c :: rest =>
    b64Char (a / 4) :: b64Char (a % 4 * 16 + b / 16) ::
      b64Char (b % 16 * 4 + c / 64) :: b64Char (c % 64) :: b64EncodeBytes rest

/-- Base64 decoding, as `base64.b64decode` performs it on well-padded
input: groups of 4 characters, with `=` padding allowed only in the final
group; `none` models the raised `binascii.Error`. -/
def b64DecodeBytes : List Char → Option (List Nat)
  | [] => some []
  | c0 :: c1 :: c2 :: c3 :: rest =>
    if c2 = '=' ∧ c3 = '=' ∧ rest = [] then
      (b64Index c0).bind (fun e0 =>
        (b64Index c1).map (fun e1 => [e0 * 4 + e1 / 16]))
    else if c3 = '=' ∧ rest = [] then
      (b64Index c0).bind (fun e0 =>
        (b64Index c1).bind (fun e1 =>
          (b64Index c2).map (fun e2 =>
            [e0 * 4 + e1 / 16, e1 % 16 * 16 + e2 / 4])))
    else
      (b64Index c0).bind (fun e0 =>
        (b64Index c1).bind (fun e1 =>
          (b64Index c2).bind (fun e2 =>
            (b64Index c3).bind (fun e3 =>
              (b64DecodeBytes rest).map (fun bs =>
                (e0 * 4 + e1 / 16) :: (e1 % 16 * 16 + e2 / 4) :: (e2 % 4 * 64 + e3) :: bs)))))
  | _ => none

/-- From `ops_session.encode_password`:
`base64.b64encode(password.encode("utf-8")).decode("utf-8")` — base64 over
the UTF-8 bytes of the password, read back as a string (alphabet characters
are ASCII, so the final decode is the identity on them). -/
def encode_password (password : String) : String :=
  ⟨b64EncodeBytes (utf8Encode password.data)⟩

/-- From `ops_session.decode_password`:
`base64.b64decode(password).decode("utf-8") if password else ""` — the empty
(falsy) stored value short-circuits to `""`; otherwise base64-decode and
UTF-8-decode, `none` modelling a raised decoding error. -/
def decode_password (password : String) : Option String :=
  if password = "" then some ""
  else (b64DecodeBytes password.data).bind (fun bytes =>
    (utf8Decode bytes).map (fun cs => ⟨cs⟩))

/-- Queue fixture with 13 pending entries and no versions to build: one
selected channel, 13 shots of duration 24, entries in timeline order. -/
def env13 : BuildEnv :=
  { available_statuses := ⟨["validated"], ["revision_needed"]⟩
    is_file := fun _ => false
    download_movie_from_kitsu := fun _ => none
    is_user_authorized_to_review := false
    selected_tasks := ["layout"]
    kitsu_shots := (List.range 13).map (fun k => ⟨"SH" ++ toString k, "SH" ++ toString k, 24⟩)
    versions_and_reviews := (List.range 13).map (fun j => ⟨0, j, none⟩) }

/-- Fixture with one channel and three shots of durations 24, 48 and 12 in
timeline order, each with one version to build. -/
def env5 : BuildEnv :=
  { available_statuses := ⟨["validated"], ["revision_needed"]⟩
    is_file := fun _ => false
    download_movie_from_kitsu := fun _ => none
    is_user_authorized_to_review := false
    selected_tasks := ["anim"]
    kitsu_shots := [⟨"SH01", "SH01", 24⟩, ⟨"SH02", "SH02", 48⟩, ⟨"SH03", "SH03", 12⟩]
    versions_and_reviews :=
      [⟨0, 0, some ⟨"SH01_v1", some "/m0.mov", "in_progress"⟩⟩,
       ⟨0, 1, some ⟨"SH02_v1", some "/m1.mov", "validated"⟩⟩,
       ⟨0, 2, some ⟨"SH03_v1", some "/m2.mov", "revision_needed"⟩⟩] }

/-- Fixture in which the first shot has no resolvable duration (the falsy
`duration` case) while a second, healthy shot is still pending behind
it. -/
def cenv7 : BuildEnv :=
  { env5 with
    kitsu_shots := [⟨"SH01", "SH01", 0⟩, ⟨"SH02", "SH02", 24⟩]
    versions_and_reviews :=
      [⟨0, 0, some ⟨"SH01_v1", some "/m0.mov", "in_progress"⟩⟩,
       ⟨0, 1, some ⟨"SH02_v1", some "/m1.mov", "validated"⟩⟩] }

/-- Fixture for a single idempotence run that drains to completion: one
channel, one shot, no pending version — the shape the program actually
reaches, since the plan's `last_version` lookup is a `None` stub and any
version-bearing entry aborts the drain at the miscalled
`create_version_sequence`. -/
def env1 : BuildEnv :=
  { available_statuses := ⟨["validated"], ["revision_needed"]⟩
    is_file := fun _ => false
    download_movie_from_kitsu := fun _ => none
    is_user_authorized_to_review := false
    selected_tasks := ["layout"]
    kitsu_shots := [⟨"SH01", "SH01", 24⟩]
    versions_and_reviews := [⟨0, 0, none⟩] }

theorem build_loop_stop (env : BuildEnv) (n : Nat) (st : BuildState)
    (h : env.versions_and_reviews.length ≤ st.counter) :
    build_loop env (n + 1) st = Except.ok (st, none) := by
  simp [build_loop, h]

theorem process_entry_counter (env : BuildEnv) (entry : QueueEntry) (st st2 : BuildState)
    (h : process_entry env entry st = Except.ok st2) : st2.counter = st.counter + 1 := by
  unfold process_entry at h
  split at h
  · split at h
    · exact absurd h (by simp)
    · cases h; rfl
  · exact absurd h (by simp)

theorem build_loop_counter_le (env : BuildEnv) :
    ∀ (n : Nat) (st st' : BuildState) (r : Option Nat),
    build_loop env n st = Except.ok (st', r) →
    st'.counter ≤ st.counter + n ∧ st.counter ≤ st'.counter := by
  intro n
  induction n with
  | zero =>
    intro st st' r h
    simp [build_loop] at h
    obtain ⟨h1, _⟩ := h
    subst h1
    omega
  | succ n ih =>
    intro st st' r h
    by_cases hc : env.versions_and_reviews.length ≤ st.counter
    · rw [build_loop_stop env n st hc] at h
      cases h
      omega
    · simp only [build_loop, if_neg hc] at h
      split at h
      · exact absurd h (by simp)
      · rename_i entry hq
        split at h
        · exact absurd h (by simp)
        · rename_i st2 hp
          have hcount := process_entry_counter env entry st st2 hp
          have := ih st2 st' r h
          omega

theorem build_loop_full (env : BuildEnv) :
    ∀ (n : Nat) (st st' : BuildState) (r : Option Nat),
    st.counter + n ≤ env.versions_and_reviews.length →
    build_loop env n st = Except.ok (st', r) →
    r = some 0 ∧ st'.counter = st.counter + n := by
  intro n
  induction n with
  | zero =>
    intro st st' r hle h
    simp [build_loop] at h
    obtain ⟨h1, h2⟩ := h
    subst h1
    exact ⟨h2.symm, rfl⟩
  | succ n ih =>
    intro st st' r hle h
    have hc : ¬ env.versions_and_reviews.length ≤ st.counter := by omega
    simp only [build_loop, if_neg hc] at h
    split at h
    · exact absurd h (by simp)
    · rename_i entry hq
      split at h
      · exact absurd h (by simp)
      · rename_i st2 hp
        have hcount := process_entry_counter env entry st st2 hp
        obtain ⟨hr, hcnt⟩ := ih st2 st' r (by omega) h
        exact ⟨hr, by omega⟩

theorem build_loop_partial (env : BuildEnv) :
    ∀ (n : Nat) (st st' : BuildState) (r : Option Nat),
    st.counter ≤ env.versions_and_reviews.length →
    env.versions_and_reviews.length < st.counter + n →
    build_loop env n st = Except.ok (st', r) →
    r = none ∧ st'.counter = env.versions_and_reviews.length := by
  intro n
  induction n with
  | zero =>
    intro st st' r hle hlt h
    omega
  | succ n ih =>
    intro st st' r hle hlt h
    by_cases hc : env.versions_and_reviews.length ≤ st.counter
    · rw [build_loop_stop env n st hc] at h
      cases h
      exact ⟨rfl, by omega⟩
    · simp only [build_loop, if_neg hc] at h
      split at h
      · exact absurd h (by simp)
      · rename_i entry hq
        split at h
        · exact absurd h (by simp)
        · rename_i st2 hp
          have hcount := process_entry_counter env entry st st2 hp
          exact ih st2 st' r (by omega) (by omega) h

theorem build_loop_none (env : BuildEnv) :
    ∀ (n : Nat) (st st' : BuildState),
    build_loop env n st = Except.ok (st', none) →
    env.versions_and_reviews.length ≤ st'.counter := by
  intro n
  induction n with
  | zero =>
    intro st st' h
    simp [build_loop] at h
  | succ n ih =>
    intro st st' h
    by_cases hc : env.versions_and_reviews.length ≤ st.counter
    · rw [build_loop_stop env n st hc] at h
      cases h
      exact hc
    · simp only [build_loop, if_neg hc] at h
      split at h
      · exact absurd h (by simp)
      · rename_i entry hq
        split at h
        · exact absurd h (by simp)
        · rename_i st2 hp
          exact ih st2 st' h

theorem drain_build_done (env : BuildEnv) (fuel : Nat) (st : BuildState)
    (h : env.versions_and_reviews.length ≤ st.counter) :
    drain_build env (fuel + 1) st = Except.ok st := by
  simp [drain_build, build_progressive, build_loop_stop env 4 st h]

theorem drain_build_counter_ge (env : BuildEnv) :
    ∀ (fuel : Nat) (st st' : BuildState),
    drain_build env fuel st = Except.ok st' →
    env.versions_and_reviews.length ≤ st'.counter := by
  intro fuel
  induction fuel with
  | zero =>
    intro st st' h
    exact absurd h (by simp [drain_build])
  | succ fuel ih =>
    intro st st' h
    simp only [drain_build, build_progressive, if_neg (by simp : ¬ (false = true))] at h
    split at h
    · exact absurd h (by simp)
    · rename_i st2 hb
      obtain rfl : st2 = st' := by injection h
      exact build_loop_none env 5 st _ hb
    · rename_i st2 d hb
      exact ih st2 st' h

/-- C1: idempotence of a full sync pass.  First part: the sentinel of
`create_version_sequence` (sequencer.py lines 143-148) returns without
creating anything whenever a sequence named with the version's name, or
that name prefixed with `"stax."`, already exists in the shot stack.
Second part: a full pass (the reset of `LoadTimelineBase.execute` followed
by a complete drain of `build_progressive` over the pending queue) is
idempotent — from any state in which an empty editor comes with fresh
counters (as in the addon, which zeroes both exactly when it clears the
editor), whenever the first pass drains to completion, running the pass a
second time with identical tracker data reproduces the first pass's final
state exactly, so the set of Version-containers after the second drain
equals the set after the first and nothing is duplicated.  A pass that
instead aborts (a duration `ValueError`, or the `TypeError` of the
miscalled `create_version_sequence` on every version-bearing entry —
see the `build_entry_containers` comment) never reaches `done`, so the
"fully draining" scenario of the claim is the `Except.ok` case quantified
here; queues the program actually drains (its `last_version` stub makes
every entry version-free) complete and are covered non-vacuously, as the
witness shows. -/
theorem create_version_sequence_idempotent_full_pass :
    (∀ (avail : StatusTaxonomy) (isf : String → Bool) (dl : KitsuVersion → Option String)
       (stack : ShotStack) (v : KitsuVersion) (ci : Option Nat) (td : Bool),
       (get_version_seq_name v ∈ stack.sequences.map VersionSeq.name ∨
        ("stax." ++ get_version_seq_name v) ∈ stack.sequences.map VersionSeq.name) →
       create_version_sequence avail isf dl stack v ci td = (stack, none))
    ∧ (∀ (env : BuildEnv) (s t : BuildState),
       (s.seq_ed = [] → s.counter = 0 ∧ s.frame_offset = 0) →
       full_sync_pass env s = Except.ok t →
       full_sync_pass env t = Except.ok t) := by
  constructor
  · intro avail isf dl stack v ci td hmem
    unfold create_version_sequence
    rw [if_pos hmem]
  · intro env s t hfresh hrun
    have hreset : load_reset s = ⟨0, 0, []⟩ := by
      rcases s with ⟨c, fo, seqs⟩
      cases seqs with
      | nil =>
        obtain ⟨hc, hf⟩ := hfresh rfl
        simp only at hc hf
        subst hc; subst hf
        simp [load_reset]
      | cons a rest => simp [load_reset]
    rw [full_sync_pass, hreset] at hrun
    by_cases hT : t.seq_ed = []
    · have hc := drain_build_counter_ge env _ _ _ hrun
      have hresetT : load_reset t = t := by
        rcases t with ⟨c, fo, seqs⟩
        simp only at hT
        subst hT
        simp [load_reset]
      rw [full_sync_pass, hresetT]
      exact drain_build_done env _ t hc
    · have hresetT : load_reset t = ⟨0, 0, []⟩ := by
        rcases t with ⟨c, fo, seqs⟩
        cases seqs with
        | nil => exact absurd rfl hT
        | cons a rest => simp [load_reset]
      rw [full_sync_pass, hresetT]
      exact hrun

/-- C1 witness: a concrete full pass over a one-entry queue that drains to
completion (`env1`, whose entry carries no version — the shape the
program's `None`-stubbed plan actually produces), and a concrete shot
stack already holding the version's name, at which the two parts of the
idempotence theorem are instantiated. -/
theorem create_version_sequence_idempotent_full_pass_witness :
    (create_version_sequence ⟨["validated"], ["revision_needed"]⟩ (fun _ => false)
       (fun _ => none)
       ⟨"SH01_layout", 1, 0, 24, "Versions",
        [⟨"SH01_v1", 1, 0, MediaKind.movie, "waiting review", true, false⟩]⟩
       ⟨"SH01_v1", some "/m0.mov", "in_progress"⟩ none false =
       (⟨"SH01_layout", 1, 0, 24, "Versions",
        [⟨"SH01_v1", 1, 0, MediaKind.movie, "waiting review", true, false⟩]⟩, none))
    ∧ ∃ t, full_sync_pass env1 ⟨0, 0, []⟩ = Except.ok t ∧
        full_sync_pass env1 t = Except.ok t := by
  constructor
  · exact create_version_sequence_idempotent_full_pass.1 _ _ _ _ _ _ _ (by decide)
  · refine ⟨_, rfl, ?_⟩
    exact create_version_sequence_idempotent_full_pass.2 env1 ⟨0, 0, []⟩ _
      (by intro h; exact ⟨rfl, rfl⟩) rfl

/-- C3: batch boundedness.  For any pending queue of 13 entries, starting
from cursor 0 with playback inactive at every tick, the first call of
`build_progressive` processes entries up to cursor 5 and asks to be
rescheduled, the second reaches cursor 10, and the third reaches cursor 13
and returns `none` (timer unregistered — done): exactly 3 calls, handling
5, 5 and 3 entries.  In general a single call advances the cursor by at
most 5 entries. -/
theorem build_progressive_batch_bound :
    (∀ (env : BuildEnv) (st st1 st2 st3 : BuildState) (r1 r2 r3 : Option Nat),
       env.versions_and_reviews.length = 13 → st.counter = 0 →
       build_progressive env false st = Except.ok (st1, r1) →
       build_progressive env false st1 = Except.ok (st2, r2) →
       build_progressive env false st2 = Except.ok (st3, r3) →
       r1 = some 0 ∧ st1.counter = 5 ∧ r2 = some 0 ∧ st2.counter = 10 ∧
         r3 = none ∧ st3.counter = 13)
    ∧ (∀ (env : BuildEnv) (p : Bool) (st st' : BuildState) (r : Option Nat),
       build_progressive env p st = Except.ok (st', r) → st'.counter ≤ st.counter + 5) := by
  constructor
  · intro env st st1 st2 st3 r1 r2 r3 hlen hc h1 h2 h3
    rw [build_progressive, if_neg (by simp)] at h1 h2 h3
    obtain ⟨hr1, hc1⟩ := build_loop_full env 5 st st1 r1 (by omega) h1
    obtain ⟨hr2, hc2⟩ := build_loop_full env 5 st1 st2 r2 (by omega) h2
    obtain ⟨hr3, hc3⟩ := build_loop_partial env 5 st2 st3 r3 (by omega) (by omega) h3
    exact ⟨hr1, by omega, hr2, by omega, hr3, by omega⟩
  · intro env p st st' r h
    cases p with
    | true =>
      rw [build_progressive, if_pos rfl] at h
      cases h
      omega
    | false =>
      rw [build_progressive, if_neg (by simp)] at h
      have := build_loop_counter_le env 5 st st' r h
      omega

/-- C3 witness: the 13-entry fixture queue, on which the three calls
evaluate to cursors 5, 10 and 13 with results `some 0`, `some 0` and
`none`. -/
theorem build_progressive_batch_bound_witness :
    env13.versions_and_reviews.length = 13 ∧
    (∃ st1 st2 st3 r1 r2 r3,
      build_progressive env13 false ⟨0, 0, []⟩ = Except.ok (st1, r1) ∧
      build_progressive env13 false st1 = Except.ok (st2, r2) ∧
      build_progressive env13 false st2 = Except.ok (st3, r3) ∧
      (r1 = some 0 ∧ st1.counter = 5 ∧ r2 = some 0 ∧ st2.counter = 10 ∧
        r3 = none ∧ st3.counter = 13)) := by
  refine ⟨by decide, ⟨_, _, _, _, _, _, rfl, rfl, rfl, ?_⟩⟩
  exact build_progressive_batch_bound.1 env13 ⟨0, 0, []⟩ _ _ _ _ _ _ (by decide) rfl
    rfl rfl rfl

/-- C4: playback guard.  Whenever the host reports animation playback
active, `build_progressive` returns at once with delay `1` (not done) and
the whole build state — cursor, frame-offset accumulator and every
already-built shot stack in the sequence editor — is returned unchanged;
this holds at every such tick. -/
theorem build_progressive_playback_guard (env : BuildEnv) (st : BuildState) :
    build_progressive env true st = Except.ok (st, some 1) := by
  rw [build_progressive, if_pos rfl]

/-- C5 (code slip evaluated): the offset expressions of the claim are in
the source verbatim (`frame_offset if shot_index != 0 else 0` when
creating, then reset-or-accumulate), but on the concrete scenario of the
claim — one channel, shots with durations 24, 48 and 12, one version per
shot (`env5`) — the very first call of `build_progressive` aborts with the
`TypeError` of the miscalled `create_version_sequence(shot_seq, version)`
(ops_timeline.py line 405; the function's required leading `self`,
sequencer.py line 129, leaves `kitsu_version` unbound), and the full pass
aborts the same way: the second and third containers are never created, so
no container ever sits at frame offset 24 or 72. -/
theorem build_progressive_offset_accumulation_crash :
    build_progressive env5 false ⟨0, 0, []⟩ =
      Except.error
        "TypeError: create_version_sequence() missing 1 required positional argument: kitsu_version"
    ∧ full_sync_pass env5 ⟨0, 0, []⟩ =
      Except.error
        "TypeError: create_version_sequence() missing 1 required positional argument: kitsu_version" :=
  ⟨rfl, rfl⟩

/-- C6: status mapping.  `build_orio_status` is a pure function of the
taxonomy and the raw status; for every taxonomy whose approved and rejected
label sets are disjoint, a status in the approved set maps to state
`"approved"`, one in the rejected set to `"rejected"`, and one in neither
set to `"waiting review"`; in particular with approved `{"validated"}` and
rejected `{"revision_needed"}`, `"validated"` maps to approved,
`"revision_needed"` to rejected and `"in_progress"` to waiting review. -/
theorem build_orio_status_mapping :
    (∀ (tax : StatusTaxonomy) (s : String),
       (∀ x, x ∈ tax.approved → x ∉ tax.rejected) →
       (s ∈ tax.approved → (build_orio_status tax s).state = "approved") ∧
       (s ∈ tax.rejected → (build_orio_status tax s).state = "rejected") ∧
       (s ∉ tax.approved → s ∉ tax.rejected →
         (build_orio_status tax s).state = "waiting review"))
    ∧ (build_orio_status ⟨["validated"], ["revision_needed"]⟩ "validated").state = "approved"
    ∧ (build_orio_status ⟨["validated"], ["revision_needed"]⟩ "revision_needed").state =
        "rejected"
    ∧ (build_orio_status ⟨["validated"], ["revision_needed"]⟩ "in_progress").state =
        "waiting review" := by
  refine ⟨?_, rfl, rfl, rfl⟩
  intro tax s hdisj
  refine ⟨?_, ?_, ?_⟩
  · intro ha
    rw [build_orio_status, if_neg (hdisj s ha), if_pos ha]
  · intro hr
    rw [build_orio_status, if_pos hr]
  · intro ha hr
    rw [build_orio_status, if_neg hr, if_neg ha]

/-- C6 witness: the disjointness hypothesis holds for the concrete taxonomy
and the theorem instantiates at it. -/
theorem build_orio_status_mapping_witness :
    (∀ x, x ∈ (["validated"] : List String) → x ∉ (["revision_needed"] : List String)) ∧
    (build_orio_status ⟨["validated"], ["revision_needed"]⟩ "validated").state = "approved" := by
  refine ⟨by decide, ?_⟩
  exact (build_orio_status_mapping.1 ⟨["validated"], ["revision_needed"]⟩ "validated"
    (by decide)).1 (by decide)

/-- C8: a version without a media locator is a silent skip.  When the
version's `movie_path` is falsy and either no download is attempted
(`try_download = false`) or the download yields nothing,
`create_version_sequence` returns the shot stack unchanged with no created
sequence — the function is total, so nothing is raised and no error is
reported. -/
theorem create_version_sequence_missing_media_skip
    (avail : StatusTaxonomy) (is_file : String → Bool)
    (dl : KitsuVersion → Option String) (stack : ShotStack) (v : KitsuVersion)
    (ci : Option Nat) (td : Bool)
    (h1 : v.movie_path = none) (h2 : td = false ∨ dl v = none) :
    create_version_sequence avail is_file dl stack v ci td = (stack, none) := by
  simp only [create_version_sequence, h1]
  split
  · rfl
  · rcases h2 with rfl | h2
    · rfl
    · cases td
      · rfl
      · simp [h2]

/-- C8 witness: a concrete version with no media locator and no download,
at which the skip theorem is instantiated. -/
theorem create_version_sequence_missing_media_skip_witness :
    (⟨"SH01_v9", none, "in_progress"⟩ : KitsuVersion).movie_path = none ∧
    create_version_sequence ⟨["validated"], ["revision_needed"]⟩ (fun _ => false)
      (fun _ => none) ⟨"SH01_layout", 1, 0, 24, "Versions", []⟩
      ⟨"SH01_v9", none, "in_progress"⟩ none false =
      (⟨"SH01_layout", 1, 0, 24, "Versions", []⟩, none) := by
  refine ⟨rfl, ?_⟩
  exact create_version_sequence_missing_media_skip _ _ _ _ _ _ _ rfl (Or.inl rfl)

/-- C7 amended: a missing duration aborts the pass instead of being a
recoverable per-shot warning.  `create_shot_stack` raises `ValueError`
naming the shot's code when the duration is falsy ("Stop process if no cut
duration for the shot", sequencer.py lines 97-102), and `build_progressive`
does not catch it: when the entry at the cursor carries a version and its
shot has no resolvable duration, the whole call errors out, so the
remaining queue entries are not processed. -/
theorem create_shot_stack_missing_duration_aborts :
    (∀ (channel_name : String) (shot : KitsuShot) (ci fs : Nat),
       shot.duration = 0 →
       create_shot_stack channel_name shot ci fs =
         Except.error ("Shot " ++ shot.code ++
           ": duration is None. Fix it in Kitsu before retrying to load."))
    ∧ (∀ (env : BuildEnv) (st : BuildState) (entry : QueueEntry) (v : KitsuVersion)
         (task : String) (shot : KitsuShot),
       env.versions_and_reviews[st.counter]? = some entry →
       entry.version = some v →
       env.selected_tasks[entry.task_index]? = some task →
       env.kitsu_shots[entry.shot_index]? = some shot →
       shot.duration = 0 →
       build_progressive env false st =
         Except.error ("Shot " ++ shot.code ++
           ": duration is None. Fix it in Kitsu before retrying to load.")) := by
  constructor
  · intro channel_name shot ci fs hdur
    rw [create_shot_stack, if_pos hdur]
  · intro env st entry v task shot hentry hv htask hshot hdur
    have hlt : st.counter < env.versions_and_reviews.length := by
      by_contra hge
      rw [List.getElem?_eq_none (by omega)] at hentry
      exact absurd hentry (by simp)
    have herr : build_entry_containers env entry task shot st =
        Except.error ("Shot " ++ shot.code ++
          ": duration is None. Fix it in Kitsu before retrying to load.") := by
      unfold build_entry_containers
      rw [hv]
      simp only
      rw [create_shot_stack, if_pos hdur]
    have hperr : process_entry env entry st =
        Except.error ("Shot " ++ shot.code ++
          ": duration is None. Fix it in Kitsu before retrying to load.") := by
      unfold process_entry
      rw [htask, hshot]
      simp only
      rw [herr]
    rw [build_progressive, if_neg (by simp)]
    show build_loop env (4 + 1) st = _
    rw [build_loop]
    rw [if_neg (by omega), hentry]
    simp only
    rw [hperr]

/-- C7 amended witness: with the `cenv7` fixture queue (first shot duration
0) the first call already errors out with the shot named in the message. -/
theorem create_shot_stack_missing_duration_aborts_witness :
    (⟨"SH01", "SH01", 0⟩ : KitsuShot).duration = 0 ∧
    create_shot_stack "anim" ⟨"SH01", "SH01", 0⟩ 1 0 =
      Except.error "Shot SH01: duration is None. Fix it in Kitsu before retrying to load." ∧
    build_progressive cenv7 false ⟨0, 0, []⟩ =
      Except.error "Shot SH01: duration is None. Fix it in Kitsu before retrying to load." := by
  refine ⟨rfl, ?_, ?_⟩
  · exact create_shot_stack_missing_duration_aborts.1 "anim" ⟨"SH01", "SH01", 0⟩ 1 0 rfl
  · exact create_shot_stack_missing_duration_aborts.2 cenv7 ⟨0, 0, []⟩
      ⟨0, 0, some ⟨"SH01_v1", some "/m0.mov", "in_progress"⟩⟩
      ⟨"SH01_v1", some "/m0.mov", "in_progress"⟩ "anim" ⟨"SH01", "SH01", 0⟩
      rfl rfl rfl rfl rfl

/-- C7 counterexample to the claim as stated: on a queue whose first shot
has no resolvable duration and whose second, healthy shot is still
pending, the full pass does not skip the bad shot with a warning and
continue — it aborts with the raised `ValueError`, and no state (in
particular no container for the second shot) is ever produced. -/
theorem create_shot_stack_missing_duration_counterexample :
    full_sync_pass cenv7 ⟨0, 0, []⟩ =
      Except.error "Shot SH01: duration is None. Fix it in Kitsu before retrying to load." :=
  rfl

/-- C2 (code slip evaluated): the queue construction of
`LoadTimelineBase.execute` iterates `reversed(selected_channels)` with the
loop header `for i, channel in ...`, which tuple-unpacks each channel-name
string; with the channels selected as `["A", "B", "C"]` this raises
`ValueError` before any queue entry is built, instead of enumerating
channels in reverse selection order as the comment above it intends. -/
theorem build_editing_versions_mapping_crash :
    build_editing_versions_mapping ["A", "B", "C"] [⟨"SH01", "SH01", 24⟩] =
      Except.error "ValueError: not enough values to unpack" :=
  rfl

theorem note_ready_false (ids : List String) (n : KitsuNote) (p : String)
    (hp : n.parent_id = some p) (hnot : p ∉ ids) : note_ready ids n = false := by
  simp only [note_ready, hp]
  simpa using hnot

theorem reconcile_aux_total :
    ∀ (fuel : Nat) (ids : List String) (pending : List KitsuNote) (n : KitsuNote),
    n ∈ pending → ∃ pl ∈ reconcile_aux fuel ids pending, pl.note = n := by
  intro fuel
  induction fuel with
  | zero =>
    intro ids pending n hn
    exact ⟨⟨n, none, true⟩, List.mem_map_of_mem _ hn, rfl⟩
  | succ fuel ih =>
    intro ids pending n hn
    rw [reconcile_aux]
    by_cases hready : (pending.filter (fun m => note_ready ids m)).isEmpty
    · rw [if_pos hready]
      exact ⟨⟨n, none, true⟩, List.mem_map_of_mem _ hn, rfl⟩
    · rw [if_neg hready]
      by_cases hr : note_ready ids n
      · refine ⟨⟨n, n.parent_id, false⟩, List.mem_append_left _ ?_, rfl⟩
        exact List.mem_map_of_mem _ (List.mem_filter.mpr ⟨hn, hr⟩)
      · obtain ⟨pl, hpl, hpln⟩ := ih (ids ++ (pending.filter (fun m => note_ready ids m)).map KitsuNote.id)
          (pending.filter (fun m => !(note_ready ids m))) n
          (List.mem_filter.mpr ⟨hn, by simpa using hr⟩)
        exact ⟨pl, List.mem_append_right _ hpl, hpln⟩

theorem reconcile_aux_orphan :
    ∀ (fuel : Nat) (ids : List String) (pending : List KitsuNote) (n : KitsuNote) (p : String),
    n ∈ pending → n.parent_id = some p → p ∉ ids → (∀ m ∈ pending, m.id ≠ p) →
    ∃ pl ∈ reconcile_aux fuel ids pending,
      pl.note = n ∧ pl.attached_under = none ∧ pl.flagged = true := by
  intro fuel
  induction fuel with
  | zero =>
    intro ids pending n p hn hp hpids hnone
    exact ⟨⟨n, none, true⟩, List.mem_map_of_mem _ hn, rfl, rfl, rfl⟩
  | succ fuel ih =>
    intro ids pending n p hn hp hpids hnone
    rw [reconcile_aux]
    by_cases hready : (pending.filter (fun m => note_ready ids m)).isEmpty
    · rw [if_pos hready]
      exact ⟨⟨n, none, true⟩, List.mem_map_of_mem _ hn, rfl, rfl, rfl⟩
    · rw [if_neg hready]
      have hrn : note_ready ids n = false := note_ready_false ids n p hp hpids
      have hnrest : n ∈ pending.filter (fun m => !(note_ready ids m)) :=
        List.mem_filter.mpr ⟨hn, by simp [hrn]⟩
      have hpids2 : p ∉ ids ++ (pending.filter (fun m => note_ready ids m)).map KitsuNote.id := by
        intro hmem
        rcases List.mem_append.mp hmem with hmem | hmem
        · exact hpids hmem
        · obtain ⟨m, hm, hmid⟩ := List.mem_map.mp hmem
          exact hnone m (List.mem_filter.mp hm).1 hmid
      have hnone2 : ∀ m ∈ pending.filter (fun m => !(note_ready ids m)), m.id ≠ p :=
        fun m hm => hnone m (List.mem_filter.mp hm).1
      obtain ⟨pl, hpl, hfields⟩ := ih _ _ n p hnrest hp hpids2 hnone2
      exact ⟨pl, List.mem_append_right _ hpl, hfields⟩

/-- C9: orphan note handling (the note-thread reconciliation of
`edit_review` is a TODO stub in the source, so the reconciler is modelled
from spec section 4.3).  Every incoming note whose declared parent
identifier appears neither among the already-placed notes nor among the
incoming batch is attached at the thread root with the anomaly flag set,
and — second part — no incoming note is ever dropped from the resulting
placement: every incoming note appears in the output. -/
theorem reconcile_notes_orphan :
    (∀ (existing : List PlacedNote) (incoming : List KitsuNote) (n : KitsuNote) (p : String),
       n ∈ incoming → n.parent_id = some p →
       p ∉ existing.map (fun pl => pl.note.id) → p ∉ incoming.map KitsuNote.id →
       ∃ pl ∈ reconcile_notes existing incoming,
         pl.note = n ∧ pl.attached_under = none ∧ pl.flagged = true)
    ∧ (∀ (existing : List PlacedNote) (incoming : List KitsuNote) (m : KitsuNote),
       m ∈ incoming → ∃ pl ∈ reconcile_notes existing incoming, pl.note = m) := by
  constructor
  · intro existing incoming n p hn hp hex hinc
    have hnone : ∀ m ∈ incoming, m.id ≠ p := by
      intro m hm he
      exact hinc (List.mem_map.mpr ⟨m, hm, he⟩)
    obtain ⟨pl, hpl, hfields⟩ :=
      reconcile_aux_orphan incoming.length (existing.map (fun pl => pl.note.id))
        incoming n p hn hp hex hnone
    exact ⟨pl, List.mem_append_right _ hpl, hfields⟩
  · intro existing incoming m hm
    obtain ⟨pl, hpl, hpln⟩ :=
      reconcile_aux_total incoming.length (existing.map (fun pl => pl.note.id)) incoming m hm
    exact ⟨pl, List.mem_append_right _ hpl, hpln⟩

/-- C9 witness: a three-note batch delivered out of order with one orphan;
the orphan is placed at the root with the flag set and every note of the
batch appears in the result. -/
theorem reconcile_notes_orphan_witness :
    (⟨"n3", some "zz", "orphan"⟩ : KitsuNote) ∈
      ([⟨"n2", some "n1", "reply"⟩, ⟨"n1", none, "root note"⟩,
        ⟨"n3", some "zz", "orphan"⟩] : List KitsuNote) ∧
    (∃ pl ∈ reconcile_notes []
        [⟨"n2", some "n1", "reply"⟩, ⟨"n1", none, "root note"⟩, ⟨"n3", some "zz", "orphan"⟩],
      pl.note = ⟨"n3", some "zz", "orphan"⟩ ∧ pl.attached_under = none ∧ pl.flagged = true) ∧
    (∃ pl ∈ reconcile_notes []
        [⟨"n2", some "n1", "reply"⟩, ⟨"n1", none, "root note"⟩, ⟨"n3", some "zz", "orphan"⟩],
      pl.note = ⟨"n2", some "n1", "reply"⟩) := by
  refine ⟨by decide, ?_, ?_⟩
  · exact reconcile_notes_orphan.1 []
      [⟨"n2", some "n1", "reply"⟩, ⟨"n1", none, "root note"⟩, ⟨"n3", some "zz", "orphan"⟩]
      ⟨"n3", some "zz", "orphan"⟩ "zz" (by decide) rfl (by decide) (by decide)
  · exact reconcile_notes_orphan.2 []
      [⟨"n2", some "n1", "reply"⟩, ⟨"n1", none, "root note"⟩, ⟨"n3", some "zz", "orphan"⟩]
      ⟨"n2", some "n1", "reply"⟩ (by decide)

theorem b64Char_index : ∀ n, n < 64 → b64Index (b64Char n) = some n := by decide

theorem b64Char_ne_pad : ∀ n, n < 64 → b64Char n ≠ '=' := by decide

theorem b64_round_trip : ∀ (bs : List Nat), (∀ b ∈ bs, b < 256) →
    b64DecodeBytes (b64EncodeBytes bs) = some bs
  | [], _ => rfl
  | [a], h => by
    have ha : a < 256 := h a (by simp)
    have e0 := b64Char_index (a / 4) (by omega)
    have e1 := b64Char_index (a % 4 * 16) (by omega)
    show b64DecodeBytes [b64Char (a / 4), b64Char (a % 4 * 16), '=', '='] = some [a]
    simp [b64DecodeBytes, e0, e1]
    omega
  | [a, b], h => by
    have ha : a < 256 := h a (by simp)
    have hb : b < 256 := h b (by simp)
    have hne : b64Char (b % 16 * 4) ≠ '=' := b64Char_ne_pad _ (by omega)
    have e0 := b64Char_index (a / 4) (by omega)
    have e1 := b64Char_index (a % 4 * 16 + b / 16) (by omega)
    have e2 := b64Char_index (b % 16 * 4) (by omega)
    show b64DecodeBytes
      [b64Char (a / 4), b64Char (a % 4 * 16 + b / 16), b64Char (b % 16 * 4), '='] =
      some [a, b]
    simp [b64DecodeBytes, hne, e0, e1, e2]
    omega
  | a :: b :: c :: rest, h => by
    have ha : a < 256 := h a (by simp)
    have hb : b < 256 := h b (by simp)
    have hc : c < 256 := h c (by simp)
    have ih := b64_round_trip rest (fun x hx => h x (by simp [hx]))
    have hne2 : b64Char (b % 16 * 4 + c / 64) ≠ '=' := b64Char_ne_pad _ (by omega)
    have hne3 : b64Char (c % 64) ≠ '=' := b64Char_ne_pad _ (by omega)
    have e0 := b64Char_index (a / 4) (by omega)
    have e1 := b64Char_index (a % 4 * 16 + b / 16) (by omega)
    have e2 := b64Char_index (b % 16 * 4 + c / 64) (by omega)
    have e3 := b64Char_index (c % 64) (by omega)
    show b64DecodeBytes (b64Char (a / 4) :: b64Char (a % 4 * 16 + b / 16) ::
        b64Char (b % 16 * 4 + c / 64) :: b64Char (c % 64) :: b64EncodeBytes rest) =
      some (a :: b :: c :: rest)
    simp [b64DecodeBytes, hne2, hne3, e0, e1, e2, e3, ih]
    omega

theorem char_toNat_valid (c : Char) :
    c.toNat < 0xD800 ∨ (0xDFFF < c.toNat ∧ c.toNat < 0x110000) := by
  rcases c.valid with h | h
  · exact Or.inl h
  · exact Or.inr h

theorem utf8EncodeChar_ne_nil (c : Char) : utf8EncodeChar c ≠ [] := by
  simp only [utf8EncodeChar]
  split_ifs <;> simp

theorem utf8EncodeChar_lt_256 (c : Char) : ∀ b ∈ utf8EncodeChar c, b < 256 := by
  have hval := char_toNat_valid c
  intro b hb
  simp only [utf8EncodeChar] at hb
  split_ifs at hb <;> simp at hb <;> omega

theorem utf8Encode_cons (c : Char) (cs : List Char) :
    utf8Encode (c :: cs) = utf8EncodeChar c ++ utf8Encode cs := by
  simp [utf8Encode]

theorem utf8Encode_lt_256 (s : List Char) : ∀ b ∈ utf8Encode s, b < 256 := by
  intro b hb
  unfold utf8Encode at hb
  obtain ⟨l, hl, hbl⟩ := List.mem_flatten.mp hb
  obtain ⟨c, _, rfl⟩ := List.mem_map.mp hl
  exact utf8EncodeChar_lt_256 c b hbl

theorem utf8DecodeStep_encodeChar (c : Char) (bs : List Nat) :
    utf8DecodeStep (utf8EncodeChar c ++ bs) = some (c.toNat, bs) := by
  have hval := char_toNat_valid c
  by_cases h1 : c.toNat < 0x80
  · have hshow : utf8EncodeChar c ++ bs = c.toNat :: bs := by
      simp only [utf8EncodeChar]
      rw [if_pos h1]
      rfl
    rw [hshow]
    simp only [utf8DecodeStep]
    rw [if_pos h1]
  · by_cases h2 : c.toNat < 0x800
    · have hshow : utf8EncodeChar c ++ bs =
          (0xC0 + c.toNat / 64) :: (0x80 + c.toNat % 64) :: bs := by
        simp only [utf8EncodeChar]
        rw [if_neg h1, if_pos h2]
        rfl
      rw [hshow]
      simp only [utf8DecodeStep]
      rw [if_neg (by omega), if_neg (by omega), if_pos (by omega)]
      simp only [utf8Dec2]
      rw [if_pos (by omega)]
      rw [show (0xC0 + c.toNat / 64 - 0xC0) * 64 + (0x80 + c.toNat % 64 - 0x80) = c.toNat
        from by omega]
    · by_cases h3 : c.toNat < 0x10000
      · have hshow : utf8EncodeChar c ++ bs =
            (0xE0 + c.toNat / 4096) :: (0x80 + c.toNat / 64 % 64) ::
              (0x80 + c.toNat % 64) :: bs := by
          simp only [utf8EncodeChar]
          rw [if_neg h1, if_neg h2, if_pos h3]
          rfl
        rw [hshow]
        simp only [utf8DecodeStep]
        rw [if_neg (by omega), if_neg (by omega), if_neg (by omega), if_pos (by omega)]
        simp only [utf8Dec3]
        rw [if_pos (by omega)]
        rw [show (0xE0 + c.toNat / 4096 - 0xE0) * 4096 + (0x80 + c.toNat / 64 % 64 - 0x80) * 64 +
            (0x80 + c.toNat % 64 - 0x80) = c.toNat from by omega]
      · have hshow : utf8EncodeChar c ++ bs =
            (0xF0 + c.toNat / 262144) :: (0x80 + c.toNat / 4096 % 64) ::
              (0x80 + c.toNat / 64 % 64) :: (0x80 + c.toNat % 64) :: bs := by
          simp only [utf8EncodeChar]
          rw [if_neg h1, if_neg h2, if_neg h3]
          rfl
        rw [hshow]
        simp only [utf8DecodeStep]
        rw [if_neg (by omega), if_neg (by omega), if_neg (by omega), if_neg (by omega),
          if_pos (by omega)]
        simp only [utf8Dec4]
        rw [if_pos (by omega)]
        rw [show (0xF0 + c.toNat / 262144 - 0xF0) * 262144 +
            (0x80 + c.toNat / 4096 % 64 - 0x80) * 4096 +
            (0x80 + c.toNat / 64 % 64 - 0x80) * 64 +
            (0x80 + c.toNat % 64 - 0x80) = c.toNat from by omega]

theorem utf8DecodeLoop_encode : ∀ (s : List Char) (fuel : Nat),
    (utf8Encode s).length ≤ fuel →
    utf8DecodeLoop fuel (utf8Encode s) = some s
  | [], fuel, _ => by
    show utf8DecodeLoop fuel [] = some []
    cases fuel <;> rfl
  | c :: cs, fuel, hf => by
    cases hu : utf8EncodeChar c with
    | nil => exact absurd hu (utf8EncodeChar_ne_nil c)
    | cons e es =>
      have hlist : utf8Encode (c :: cs) = e :: (es ++ utf8Encode cs) := by
        rw [utf8Encode_cons, hu]
        rfl
      rw [hlist] at hf ⊢
      cases fuel with
      | zero => simp at hf
      | succ f =>
        have hstep : utf8DecodeStep (e :: (es ++ utf8Encode cs)) =
            some (c.toNat, utf8Encode cs) := by
          rw [show e :: (es ++ utf8Encode cs) = utf8EncodeChar c ++ utf8Encode cs from by
            rw [hu]; rfl]
          exact utf8DecodeStep_encodeChar c (utf8Encode cs)
        have hlen : (utf8Encode cs).length ≤ f := by
          simp only [List.length_cons, List.length_append] at hf
          omega
        have ih := utf8DecodeLoop_encode cs f hlen
        simp only [utf8DecodeLoop]
        rw [hstep]
        simp only [ih, Option.map_some]
        rw [Char.ofNat_toNat]
        rfl

theorem utf8_round_trip (s : List Char) : utf8Decode (utf8Encode s) = some s :=
  utf8DecodeLoop_encode s (utf8Encode s).length le_rfl

theorem b64EncodeBytes_ne_nil (x : Nat) : ∀ (l : List Nat), b64EncodeBytes (x :: l) ≠ []
  | [] => by simp [b64EncodeBytes]
  | [_] => by simp [b64EncodeBytes]
  | _ :: _ :: _ => by simp [b64EncodeBytes]

/-- C10: the credential codec round-trips.  For every Unicode string `p`,
`decode_password (encode_password p) = some p` (the decode raises nothing
and recovers `p` exactly), and the empty (falsy) stored value decodes to
the empty string without raising. -/
theorem decode_encode_password :
    (∀ p : String, decode_password (encode_password p) = some p) ∧
    decode_password "" = some "" := by
  constructor
  · intro p
    rcases p with ⟨data⟩
    cases data with
    | nil => rfl
    | cons c cs =>
      have hne : encode_password ⟨c :: cs⟩ ≠ "" := by
        simp only [encode_password]
        intro hcontra
        have hdata : b64EncodeBytes (utf8Encode (c :: cs)) = [] := by
          have := congrArg String.data hcontra
          simpa using this
        rw [utf8Encode_cons] at hdata
        cases hu : utf8EncodeChar c with
        | nil => exact utf8EncodeChar_ne_nil c hu
        | cons x xs =>
          rw [hu] at hdata
          exact b64EncodeBytes_ne_nil x (xs ++ utf8Encode cs) hdata
      rw [decode_password, if_neg hne]
      have hdd : (encode_password ⟨c :: cs⟩).data = b64EncodeBytes (utf8Encode (c :: cs)) :=
        rfl
      rw [hdd, b64_round_trip _ (utf8Encode_lt_256 _)]
      simp [utf8_round_trip]
  · rfl

end StaxKitsu
